import Mathlib

/-!
Verification development for the Mediverse chat backend (`src/server.js`).

The shallow embedding below translates the conversation state machine of the
`POST /chat/:conversationId` handler, its helper functions
(`normalizeInput`, `isAffirmativeShort`, `isNegativeShort`,
`detectDoctorIntent`, `detectSpecialty`, `maybeUpdateSummary`) and the
conversation persistence behaviour into executable Lean definitions.

Modelling conventions:
* JavaScript strings are Lean `String`s (lists of Unicode scalar values).
* `String.prototype.toLowerCase` is modelled by ASCII lowering
  (`Char.toLower`); every string the program lowercases in the verified
  scenarios contains uppercase letters only in the ASCII range, where the
  two functions agree.
* `String.prototype.normalize("NFD")` is modelled by a canonical
  decomposition table covering the precomposed characters occurring in the
  evaluated inputs; all other characters are NFD-inert in the model.
* The external Gemini collaborator (`model.generateContent`) is modelled by
  an explicit behaviour value `GenResult` (a returned text or a thrown
  failure) passed to each call site.
* Mongoose persistence: `Conversation.findById` rehydrates exactly the
  paths declared in `ConversationSchema` (userId, messages, doctor,
  pendingDoctor, summary, createdAt).  `lastAskPending` is assigned by the
  handler but is not a schema path, and the schema uses the default strict
  mode, so `save()` never writes it and a reloaded document reads it as
  `undefined` (falsy).  `reloadConvo` models this round trip.
-/

namespace Mediverse

/-! ## String primitives -/

/-- Whitespace for `String.prototype.trim` (the inputs considered use only
ASCII whitespace, where JS and this model agree). -/
def isWsChar (c : Char) : Bool :=
  c = ' ' || c = '\t' || c = '\n' || c = '\r'

/-- `trim` on a character list: drop whitespace from both ends. -/
def jsTrimL (l : List Char) : List Char :=
  ((l.dropWhile isWsChar).reverse.dropWhile isWsChar).reverse

/-- JavaScript `input.trim()`. -/
def jsTrim (s : String) : String :=
  ⟨jsTrimL s.data⟩

/-- Lower-case mappings beyond ASCII for the precomposed Vietnamese
letters used by the program's vocabularies and seed data. -/
def lowerTable : List (Char × Char) :=
  [ ('Đ', 'đ'), ('Ô', 'ô'), ('Ê', 'ê'), ('Á', 'á'), ('À', 'à'),
    ('Ó', 'ó'), ('Ố', 'ố'), ('Ồ', 'ồ'), ('Ặ', 'ặ'), ('Ĩ', 'ĩ'),
    ('Ị', 'ị'), ('Ế', 'ế'), ('Ư', 'ư'), ('Ơ', 'ơ'), ('Ộ', 'ộ') ]

/-- Lower-casing of one character: ASCII plus `lowerTable`. -/
def jsLowerChar (c : Char) : Char :=
  ((lowerTable.find? (fun p => p.1 == c)).map Prod.snd).getD c.toLower

/-- JavaScript `text.toLowerCase()`; ASCII plus the table above (see header
note). -/
def jsLowerL (l : List Char) : List Char :=
  l.map jsLowerChar

/-- JavaScript `text.toLowerCase()` on strings. -/
def jsLower (s : String) : String :=
  ⟨jsLowerL s.data⟩

/-- Substring test on character lists, the semantics of
`String.prototype.includes` and of a regex alternation of literals. -/
def isInfixOfL (pat : List Char) : List Char → Bool
  | [] => pat.isEmpty
  | c :: t => pat.isPrefixOf (c :: t) || isInfixOfL pat t

/-- `s.includes(pat)` for strings. -/
def hasSub (s pat : String) : Bool :=
  isInfixOfL pat.data s.data

/-! ## Unicode normalization (`normalizeInput`) -/

/-- Is `c` a combining diacritical mark (U+0300–U+036F), the range removed
by `replace(/[̀-ͯ]/g, "")`? -/
def isCombMark (c : Char) : Bool :=
  0x300 ≤ c.toNat && c.toNat ≤ 0x36F

/-- Canonical decompositions (`normalize("NFD")`) for the precomposed
characters occurring in the concretely evaluated inputs; other characters
are treated as NFD-inert. -/
def nfdTable : List (Char × List Char) :=
  [ ('á', ['a', Char.ofNat 0x301]),
    ('à', ['a', Char.ofNat 0x300]),
    ('ó', ['o', Char.ofNat 0x301]),
    ('ô', ['o', Char.ofNat 0x302]),
    ('ố', ['o', Char.ofNat 0x302, Char.ofNat 0x301]),
    ('ồ', ['o', Char.ofNat 0x302, Char.ofNat 0x300]),
    ('ặ', ['a', Char.ofNat 0x323, Char.ofNat 0x306]),
    ('ĩ', ['i', Char.ofNat 0x303]),
    ('ị', ['i', Char.ofNat 0x323]),
    ('ê', ['e', Char.ofNat 0x302]),
    ('ế', ['e', Char.ofNat 0x302, Char.ofNat 0x301]) ]

/-- NFD of one character. -/
def nfdChar (c : Char) : List Char :=
  ((nfdTable.find? (fun p => p.1 == c)).map Prod.snd).getD [c]

/-- NFD of a character list. -/
def nfdL (l : List Char) : List Char :=
  (l.map nfdChar).flatten

/-- `normalizeInput` from server.js:
`input?.trim().toLowerCase().normalize("NFD").replace(/[̀-ͯ]/g, "")`. -/
def normalizeInput (s : String) : String :=
  ⟨(nfdL (jsLowerL (jsTrimL s.data))).filter (fun c => !isCombMark c)⟩

/-- `isAffirmativeShort` from server.js. -/
def isAffirmativeShort (s : String) : Bool :=
  let txt := normalizeInput s
  if txt = "" then false
  else ["co", "ok", "yes", "dong y", "d"].contains txt

/-- `isNegativeShort` from server.js. -/
def isNegativeShort (s : String) : Bool :=
  let txt := normalizeInput s
  if txt = "" then false
  else ["khong", "ko", "no", "k"].contains txt

/-! ## Word-boundary regex model (`detectDoctorIntent` fast path)

The fast-path regexes are alternations of literal keywords wrapped in `\b`.
JavaScript's `\b` (without the `u` flag) is a transition between a word
character `[A-Za-z0-9_]` and a non-word character (or text edge). -/

/-- JS regex word character `[A-Za-z0-9_]`. -/
def isWordChar (c : Char) : Bool :=
  ('a' ≤ c && c ≤ 'z') || ('A' ≤ c && c ≤ 'Z') || ('0' ≤ c && c ≤ '9') || c = '_'

/-- Word-ness of an optional character (text edge counts as non-word). -/
def optWord : Option Char → Bool
  | none => false
  | some c => isWordChar c

/-- Does the literal alternative `p`, wrapped in `\b...\b`, match at the
start of `s`, where `prev` is the character just before this position? -/
def altHere (prev : Option Char) (p s : List Char) : Bool :=
  p.isPrefixOf s
    && (optWord prev != optWord p.head?)
    && (optWord p.getLast? != optWord ((s.drop p.length).head?))

/-- `\b(p₁|p₂|…)\b`.test(s): does some alternative match at some position? -/
def wordRegexTest (pats : List (List Char)) : Option Char → List Char → Bool
  | prev, [] => pats.any (fun p => altHere prev p [])
  | prev, c :: t => pats.any (fun p => altHere prev p (c :: t)) || wordRegexTest pats (some c) t

/-- Regex test entry point on strings. -/
def wordTest (pats : List String) (s : String) : Bool :=
  wordRegexTest (pats.map String.data) none s.data

/-- Alternatives of `wantRegex` in `detectDoctorIntent`. -/
def wantKeywords : List String :=
  ["muốn", "cần", "gặp", "khám", "cho tôi bác sĩ", "tư vấn", "được tư vấn", "xin gặp"]

/-- Alternatives of `notRegex` in `detectDoctorIntent`. -/
def notKeywords : List String :=
  ["không", "chưa", "không muốn", "ko", "từ chối"]

/-- Verdict of the fast (regex) path of `detectDoctorIntent`. -/
inductive FastVerdict
  | yes
  | no
  | ambiguous
deriving DecidableEq

/-- The fast path of `detectDoctorIntent`: lower-case the question, test the
two keyword regexes; exactly one matching set yields an immediate verdict. -/
def fastPathVerdict (q : String) : FastVerdict :=
  let t := jsLower q
  let w := wordTest wantKeywords t
  let n := wordTest notKeywords t
  if w && !n then .yes
  else if n && !w then .no
  else .ambiguous

/-! ## Specialty matcher (`detectSpecialty`) -/

/-- Does some keyword of the rule occur in `t` (regex alternation of
literal keywords, substring semantics)? -/
def anyKey (keys : List String) (t : String) : Bool :=
  keys.any (fun k => hasSub t k)

/-- The ordered rule list of `detectSpecialty`, one `(keywords, tag)` pair
per regex line in source order. -/
def specialtyRules : List (List String × String) :=
  [ (["bụng", "dạ dày", "tiêu chảy", "táo bón", "buồn nôn", "nôn", "ợ nóng", "trào ngược", "tiêu hóa"], "Tiêu hoá"),
    (["tim", "huyết áp", "đau ngực", "mạch", "nhồi máu", "cao huyết áp", "tức ngực"], "Tim mạch"),
    (["da", "mụn", "dị ứng", "mẩn đỏ", "ngứa", "chàm", "vẩy nến", "mề đay", "da liễu"], "Da liễu"),
    (["tai", "mũi", "họng", "viêm xoang", "ù tai", "viêm amidan"], "Tai mũi họng"),
    (["ho", "khó thở", "hen", "viêm phổi", "viêm phế quản", "đờm"], "Hô hấp"),
    (["xương", "khớp", "đau lưng", "viêm khớp", "gai cột sống", "gút", "gut", "gout"], "Cơ xương khớp"),
    (["đau đầu", "chóng mặt", "mất ngủ", "động kinh", "run tay", "tê"], "Thần kinh"),
    (["kinh nguyệt", "rong kinh", "mang thai", "vô sinh", "thai sản", "phụ khoa"], "Sản phụ khoa"),
    (["trẻ", "bé", "sốt cao", "tiêu chảy trẻ em", "ho trẻ"], "Nhi khoa") ]

/-- `detectSpecialty` from server.js: lower-case the text, test the nine
keyword regexes in source order, first match wins, default `'Tổng quát'`. -/
def detectSpecialty (text : String) : String :=
  let t := jsLower text
  if anyKey ["bụng", "dạ dày", "tiêu chảy", "táo bón", "buồn nôn", "nôn", "ợ nóng", "trào ngược", "tiêu hóa"] t then "Tiêu hoá"
  else if anyKey ["tim", "huyết áp", "đau ngực", "mạch", "nhồi máu", "cao huyết áp", "tức ngực"] t then "Tim mạch"
  else if anyKey ["da", "mụn", "dị ứng", "mẩn đỏ", "ngứa", "chàm", "vẩy nến", "mề đay", "da liễu"] t then "Da liễu"
  else if anyKey ["tai", "mũi", "họng", "viêm xoang", "ù tai", "viêm amidan"] t then "Tai mũi họng"
  else if anyKey ["ho", "khó thở", "hen", "viêm phổi", "viêm phế quản", "đờm"] t then "Hô hấp"
  else if anyKey ["xương", "khớp", "đau lưng", "viêm khớp", "gai cột sống", "gút", "gut", "gout"] t then "Cơ xương khớp"
  else if anyKey ["đau đầu", "chóng mặt", "mất ngủ", "động kinh", "run tay", "tê"] t then "Thần kinh"
  else if anyKey ["kinh nguyệt", "rong kinh", "mang thai", "vô sinh", "thai sản", "phụ khoa"] t then "Sản phụ khoa"
  else if anyKey ["trẻ", "bé", "sốt cao", "tiêu chảy trẻ em", "ho trẻ"] t then "Nhi khoa"
  else "Tổng quát"

/-- First-match semantics over the ordered rule list: the tag of the first
rule whose pattern matches, or the general-medicine default. -/
def firstMatchTag (text : String) : String :=
  (((specialtyRules.find? (fun r => anyKey r.1 (jsLower text)))).map Prod.snd).getD "Tổng quát"

/-! ## Data model -/

/-- `MessageSchema.role` enum. -/
inductive Role
  | user
  | assistant
  | system
deriving DecidableEq

/-- A `MessageSchema` document (timestamps are irrelevant to the verified
properties and omitted). -/
structure Message where
  role : Role
  content : String
deriving DecidableEq

/-- A `DoctorSchema` document. -/
structure Doctor where
  name : String
  specialty : String
  hospital : String
  experience : Nat
  available : Bool
deriving DecidableEq

/-- An in-memory `Conversation` document as the chat handler sees it after
`findById(...).populate("doctor pendingDoctor")`: doctor references are
resolved to the doctor documents.  `lastAskPending` is the in-memory
re-prompt flag the handler assigns; it is not a `ConversationSchema` path
(see header note on persistence). -/
structure Convo where
  userId : String
  messages : List Message
  doctor : Option Doctor
  pendingDoctor : Option Doctor
  summary : String
  lastAskPending : Bool
deriving DecidableEq

/-- A `TriageSchema` document (the conversation reference is dropped; it
plays no role in the verified properties). -/
structure TriageRecord where
  userId : String
  symptoms : String
  suggestedSpecialty : String
deriving DecidableEq

/-- One behaviour of a `model.generateContent` call: a returned text, or a
thrown failure. -/
inductive GenResult
  | ok (text : String)
  | fail
deriving DecidableEq

/-- `save()` followed by re-`findById`: only `ConversationSchema` paths
survive the round trip, so the non-schema `lastAskPending` reads as
`undefined` (falsy) on the next request. -/
def reloadConvo (c : Convo) : Convo :=
  { c with lastAskPending := false }

/-- Append one message (`convo.messages.push(...)`). -/
def pushMsg (c : Convo) (r : Role) (t : String) : Convo :=
  { c with messages := c.messages ++ [⟨r, t⟩] }

/-! ## Context compactor (`maybeUpdateSummary`) -/

/-- Result of a `maybeUpdateSummary` invocation: the conversation
afterwards, how many times it called `convo.save()`, and how many times it
called `model.generateContent`. -/
structure CompactResult where
  convo : Convo
  saves : Nat
  calls : Nat
deriving DecidableEq

/-- `maybeUpdateSummary` from server.js, with the generator behaviour `o`
made explicit: at ≥ 30 messages it asks for a synopsis of all but the last
10 messages; a non-empty trimmed synopsis is appended to the running
summary (`" / "`-separated) and the log truncated to the last 10 messages,
then saved; a thrown call or empty synopsis leaves the conversation
untouched. -/
def maybeUpdateSummaryR (o : GenResult) (c : Convo) : CompactResult :=
  if 30 ≤ c.messages.length then
    match o with
    | .fail => ⟨c, 0, 1⟩
    | .ok t =>
      if jsTrim t = "" then ⟨c, 0, 1⟩
      else
        ⟨{ c with
            summary := if c.summary ≠ "" then c.summary ++ " / " ++ jsTrim t else jsTrim t,
            messages := c.messages.drop (c.messages.length - 10) },
          1, 1⟩
  else ⟨c, 0, 0⟩

/-! ## Intent classifier (`detectDoctorIntent`) -/

/-- Parsing of the fallback model response: lower-case it, look for an
affirmative token, then a negative token, defaulting to `false`. -/
def parseYesNo (raw : String) : Bool :=
  let r := jsLower raw
  if hasSub r "yes" || hasSub r "có" then true
  else if hasSub r "no" || hasSub r "không" then false
  else false

/-- `detectDoctorIntent` from server.js with the fallback-call behaviour
`o` made explicit; returns the verdict and the number of generator calls
made.  Blank questions short-circuit to `false`; an unambiguous fast-path
verdict is returned without calling the model; otherwise the model is
called once and a thrown call degrades to `false`. -/
def detectDoctorIntentR (o : GenResult) (q : String) : Bool × Nat :=
  if jsTrim q = "" then (false, 0)
  else
    match fastPathVerdict q with
    | .yes => (true, 0)
    | .no => (false, 0)
    | .ambiguous =>
      match o with
      | .fail => (false, 1)
      | .ok raw => (parseYesNo raw, 1)

/-! ## The chat turn (`POST /chat/:conversationId`) -/

/-- Assistant reply strings of the pending-confirmation branches. -/
def askStr : String :=
  "Bạn có muốn chuyển tiếp sang bác sĩ được gợi ý không? (Có / Không)"

/-- Fallback reply when the user was already re-asked once. -/
def fallbackStr : String :=
  "Xin lỗi, tôi chưa hiểu. Bạn hãy trả lời rõ: Có hoặc Không."

/-- Decline notice on a negative short reply. -/
def declineStr : String :=
  "❌ Bạn đã từ chối chuyển sang bác sĩ. Tôi sẽ tiếp tục hỗ trợ bạn."

/-- Confirmation notice naming the newly bound doctor. -/
def connectStr (d : Doctor) : String :=
  "✅ Bạn đã được kết nối với bác sĩ " ++ d.name ++ " (" ++ d.specialty ++ ")."

/-- Suggestion message naming the matched doctor. -/
def suggestStr (d : Doctor) : String :=
  "Tôi gợi ý bác sĩ " ++ d.name ++ " (" ++ d.specialty ++ "). Bạn có muốn chuyển tiếp để được tư vấn không? (Có / Không)"

/-- Apology when no doctor of the suggested specialty is found. -/
def noDoctorStr (spec : String) : String :=
  "Hiện tại chưa có bác sĩ chuyên khoa " ++ spec ++ " khả dụng. Tôi sẽ tiếp tục hỗ trợ bạn."

/-- Apology when the doctor-persona generation call throws. -/
def doctorBusyStr : String :=
  "(Hệ thống bác sĩ đang bận, thử lại sau)"

/-- Apology when the nurse-persona generation call throws. -/
def nurseBusyStr : String :=
  "(Hệ thống đang bận, thử lại sau)"

/-- `new RegExp(suggestedSpecialty, "i").test(doctorSpecialty)`: the
specialty tags contain no regex metacharacters, so the test is a
case-insensitive substring match. -/
def specRegexMatch (pat target : String) : Bool :=
  isInfixOfL (jsLowerL pat.data) (jsLowerL target.data)

/-- Everything one `POST /chat/:conversationId` request produces: the
conversation as finally persisted (compaction included), the reply text,
the triage records written, the number of `model.generateContent` calls
and the number of `Conversation` writes. -/
structure TurnResult where
  convo : Convo
  answer : String
  triage : List TriageRecord
  genCalls : Nat
  convoSaves : Nat
deriving DecidableEq

/-- The `POST /chat/:conversationId` handler body after the input checks,
translated branch by branch from server.js.  `io`, `ro`, `so` are the
behaviours of the generator at the intent-fallback, reply-generation and
summary call sites; `db` is the doctor collection in natural order. -/
def chatStep (io ro so : GenResult) (db : List Doctor) (c0 : Convo) (q : String) : TurnResult :=
  let c := pushMsg c0 .user q
  match c.pendingDoctor with
  | some d =>
    if isAffirmativeShort q then
      let c := { c with doctor := some d, pendingDoctor := none, lastAskPending := false }
      let c := pushMsg c .assistant (connectStr d)
      let r := maybeUpdateSummaryR so c
      ⟨r.convo, connectStr d, [], r.calls, 1 + r.saves⟩
    else if isNegativeShort q then
      let c := { c with pendingDoctor := none, lastAskPending := false }
      let c := pushMsg c .assistant declineStr
      let r := maybeUpdateSummaryR so c
      ⟨r.convo, declineStr, [], r.calls, 1 + r.saves⟩
    else if !c.lastAskPending then
      ⟨pushMsg { c with lastAskPending := true } .assistant askStr, askStr, [], 0, 1⟩
    else
      ⟨pushMsg { c with lastAskPending := false } .assistant fallbackStr, fallbackStr, [], 0, 1⟩
  | none =>
    match c.doctor with
    | some _ =>
      let answer := match ro with | .ok s => s | .fail => doctorBusyStr
      let c := pushMsg c .assistant answer
      let r := maybeUpdateSummaryR so c
      ⟨r.convo, answer, [], 1 + r.calls, 1 + r.saves⟩
    | none =>
      let intent := detectDoctorIntentR io q
      if intent.1 then
        let spec := detectSpecialty q
        let tri : TriageRecord := ⟨c.userId, q, spec⟩
        match db.find? (fun doc => specRegexMatch spec doc.specialty) with
        | some doc =>
          let c := { c with pendingDoctor := some doc, lastAskPending := false }
          let c := pushMsg c .assistant (suggestStr doc)
          let r := maybeUpdateSummaryR so c
          ⟨r.convo, suggestStr doc, [tri], intent.2 + r.calls, 1 + r.saves⟩
        | none =>
          let c := pushMsg c .assistant (noDoctorStr spec)
          let r := maybeUpdateSummaryR so c
          ⟨r.convo, noDoctorStr spec, [tri], intent.2 + r.calls, 1 + r.saves⟩
      else
        let answer := match ro with | .ok s => s | .fail => nurseBusyStr
        let c := pushMsg c .assistant answer
        let r := maybeUpdateSummaryR so c
        ⟨r.convo, answer, [], intent.2 + 1 + r.calls, 1 + r.saves⟩

/-! ## Helper lemmas about the compactor -/

theorem mus_doctor (o : GenResult) (c : Convo) :
    (maybeUpdateSummaryR o c).convo.doctor = c.doctor := by
  unfold maybeUpdateSummaryR
  (repeat' split) <;> rfl

theorem mus_pending (o : GenResult) (c : Convo) :
    (maybeUpdateSummaryR o c).convo.pendingDoctor = c.pendingDoctor := by
  unfold maybeUpdateSummaryR
  (repeat' split) <;> rfl

theorem mus_last (o : GenResult) (c : Convo) :
    (maybeUpdateSummaryR o c).convo.lastAskPending = c.lastAskPending := by
  unfold maybeUpdateSummaryR
  (repeat' split) <;> rfl

theorem mus_userId (o : GenResult) (c : Convo) :
    (maybeUpdateSummaryR o c).convo.userId = c.userId := by
  unfold maybeUpdateSummaryR
  (repeat' split) <;> rfl

theorem mus_below (o : GenResult) (c : Convo) (h : c.messages.length < 30) :
    maybeUpdateSummaryR o c = ⟨c, 0, 0⟩ := by
  unfold maybeUpdateSummaryR
  rw [if_neg (by omega)]

theorem mus_saves_le (o : GenResult) (c : Convo) :
    (maybeUpdateSummaryR o c).saves ≤ 1 := by
  unfold maybeUpdateSummaryR
  (repeat' split) <;> simp

theorem mus_calls_eq (o : GenResult) (c : Convo) :
    (maybeUpdateSummaryR o c).calls = if 30 ≤ c.messages.length then 1 else 0 := by
  unfold maybeUpdateSummaryR
  (repeat' split) <;> simp_all

theorem mus_msgs (o : GenResult) (c : Convo) :
    ∃ k, (maybeUpdateSummaryR o c).convo.messages = c.messages.drop k ∧
      (k = 0 ∨ (30 ≤ c.messages.length ∧ k = c.messages.length - 10)) := by
  unfold maybeUpdateSummaryR
  split
  case isFalse => exact ⟨0, by simp, Or.inl rfl⟩
  case isTrue h =>
    cases o with
    | fail => exact ⟨0, by simp, Or.inl rfl⟩
    | ok t =>
      by_cases ht : jsTrim t = ""
      · simp only [ht, if_pos]
        exact ⟨0, by simp, Or.inl rfl⟩
      · simp only [if_neg ht]
        exact ⟨c.messages.length - 10, rfl, Or.inr ⟨h, rfl⟩⟩

/-! ## Branch-shape lemmas for the chat turn -/

theorem chatStep_pending_aff (io ro so : GenResult) (db : List Doctor)
    (c0 : Convo) (q : String) (d : Doctor)
    (hp : c0.pendingDoctor = some d) (ha : isAffirmativeShort q = true) :
    chatStep io ro so db c0 q =
      (let c := pushMsg { (pushMsg c0 .user q) with
          doctor := some d, pendingDoctor := none, lastAskPending := false }
          .assistant (connectStr d)
       let r := maybeUpdateSummaryR so c
       ⟨r.convo, connectStr d, [], r.calls, 1 + r.saves⟩) := by
  unfold chatStep
  simp [pushMsg, hp, ha]

theorem chatStep_pending_neg (io ro so : GenResult) (db : List Doctor)
    (c0 : Convo) (q : String) (d : Doctor)
    (hp : c0.pendingDoctor = some d) (ha : isAffirmativeShort q = false)
    (hn : isNegativeShort q = true) :
    chatStep io ro so db c0 q =
      (let c := pushMsg { (pushMsg c0 .user q) with
          pendingDoctor := none, lastAskPending := false }
          .assistant declineStr
       let r := maybeUpdateSummaryR so c
       ⟨r.convo, declineStr, [], r.calls, 1 + r.saves⟩) := by
  unfold chatStep
  simp [pushMsg, hp, ha, hn]

theorem chatStep_pending_ask (io ro so : GenResult) (db : List Doctor)
    (c0 : Convo) (q : String) (d : Doctor)
    (hp : c0.pendingDoctor = some d) (ha : isAffirmativeShort q = false)
    (hn : isNegativeShort q = false) (hl : c0.lastAskPending = false) :
    chatStep io ro so db c0 q =
      ⟨pushMsg { (pushMsg c0 .user q) with lastAskPending := true } .assistant askStr,
        askStr, [], 0, 1⟩ := by
  unfold chatStep
  simp [pushMsg, hp, ha, hn, hl]

theorem chatStep_pending_fb (io ro so : GenResult) (db : List Doctor)
    (c0 : Convo) (q : String) (d : Doctor)
    (hp : c0.pendingDoctor = some d) (ha : isAffirmativeShort q = false)
    (hn : isNegativeShort q = false) (hl : c0.lastAskPending = true) :
    chatStep io ro so db c0 q =
      ⟨pushMsg { (pushMsg c0 .user q) with lastAskPending := false } .assistant fallbackStr,
        fallbackStr, [], 0, 1⟩ := by
  unfold chatStep
  simp [pushMsg, hp, ha, hn, hl]

theorem chatStep_connected (io ro so : GenResult) (db : List Doctor)
    (c0 : Convo) (q : String) (d : Doctor)
    (hp : c0.pendingDoctor = none) (hd : c0.doctor = some d) :
    chatStep io ro so db c0 q =
      (let answer := match ro with | .ok s => s | .fail => doctorBusyStr
       let c := pushMsg (pushMsg c0 .user q) .assistant answer
       let r := maybeUpdateSummaryR so c
       ⟨r.convo, answer, [], 1 + r.calls, 1 + r.saves⟩) := by
  unfold chatStep
  simp [pushMsg, hp, hd]

theorem chatStep_free_suggest (io ro so : GenResult) (db : List Doctor)
    (c0 : Convo) (q : String) (doc : Doctor)
    (hp : c0.pendingDoctor = none) (hd : c0.doctor = none)
    (hi : (detectDoctorIntentR io q).1 = true)
    (hf : db.find? (fun doc => specRegexMatch (detectSpecialty q) doc.specialty) = some doc) :
    chatStep io ro so db c0 q =
      (let c := pushMsg { (pushMsg c0 .user q) with
          pendingDoctor := some doc, lastAskPending := false }
          .assistant (suggestStr doc)
       let r := maybeUpdateSummaryR so c
       ⟨r.convo, suggestStr doc, [⟨c0.userId, q, detectSpecialty q⟩],
         (detectDoctorIntentR io q).2 + r.calls, 1 + r.saves⟩) := by
  unfold chatStep
  simp [pushMsg, hp, hd, hi, hf]

theorem chatStep_free_nodoc (io ro so : GenResult) (db : List Doctor)
    (c0 : Convo) (q : String)
    (hp : c0.pendingDoctor = none) (hd : c0.doctor = none)
    (hi : (detectDoctorIntentR io q).1 = true)
    (hf : db.find? (fun doc => specRegexMatch (detectSpecialty q) doc.specialty) = none) :
    chatStep io ro so db c0 q =
      (let c := pushMsg (pushMsg c0 .user q) .assistant (noDoctorStr (detectSpecialty q))
       let r := maybeUpdateSummaryR so c
       ⟨r.convo, noDoctorStr (detectSpecialty q), [⟨c0.userId, q, detectSpecialty q⟩],
         (detectDoctorIntentR io q).2 + r.calls, 1 + r.saves⟩) := by
  unfold chatStep
  simp [pushMsg, hp, hd, hi, hf]

theorem chatStep_free_nurse (io ro so : GenResult) (db : List Doctor)
    (c0 : Convo) (q : String)
    (hp : c0.pendingDoctor = none) (hd : c0.doctor = none)
    (hi : (detectDoctorIntentR io q).1 = false) :
    chatStep io ro so db c0 q =
      (let answer := match ro with | .ok s => s | .fail => nurseBusyStr
       let c := pushMsg (pushMsg c0 .user q) .assistant answer
       let r := maybeUpdateSummaryR so c
       ⟨r.convo, answer, [], (detectDoctorIntentR io q).2 + 1 + r.calls, 1 + r.saves⟩) := by
  unfold chatStep
  simp [pushMsg, hp, hd, hi]

/-! ## Small string lemmas -/

theorem string_append_ne_empty_right (a b : String) (hb : b ≠ "") : a ++ b ≠ "" := by
  intro h
  apply hb
  have hd : a.data ++ b.data = ([] : List Char) := by
    have : (a ++ b).data = ("" : String).data := by rw [h]
    exact this
  cases b
  simp at hd
  simp [hd.2]

/-! ## Claim theorems -/

/-- C1: when a conversation has a pending specialist and the incoming user
message is an affirmative short-form reply, the submit-message operation
binds the pending specialist as the bound specialist, leaves no pending
specialist set, clears the retry flag, and replies with the confirmation
notice naming that specialist. -/
theorem C1_confirm_binds_pending (io ro so : GenResult) (db : List Doctor)
    (c : Convo) (q : String) (d : Doctor)
    (hp : c.pendingDoctor = some d) (ha : isAffirmativeShort q = true) :
    (chatStep io ro so db c q).convo.doctor = some d ∧
    (chatStep io ro so db c q).convo.pendingDoctor = none ∧
    (chatStep io ro so db c q).convo.lastAskPending = false ∧
    (chatStep io ro so db c q).answer = connectStr d := by
  rw [chatStep_pending_aff io ro so db c q d hp ha]
  refine ⟨?_, ?_, ?_, rfl⟩ <;>
    simp [mus_doctor, mus_pending, mus_last, pushMsg]

/-- Witness for C1 at a concrete conversation and the reply `"ok"`. -/
theorem C1_confirm_binds_pending_witness :
    (chatStep .fail .fail .fail []
        ⟨"u1", [], none, some ⟨"BS. Nguyễn Văn A", "Tim mạch", "BV Chợ Rẫy", 12, true⟩, "", false⟩
        "ok").convo.doctor = some ⟨"BS. Nguyễn Văn A", "Tim mạch", "BV Chợ Rẫy", 12, true⟩ ∧
    (chatStep .fail .fail .fail []
        ⟨"u1", [], none, some ⟨"BS. Nguyễn Văn A", "Tim mạch", "BV Chợ Rẫy", 12, true⟩, "", false⟩
        "ok").convo.pendingDoctor = none ∧
    (chatStep .fail .fail .fail []
        ⟨"u1", [], none, some ⟨"BS. Nguyễn Văn A", "Tim mạch", "BV Chợ Rẫy", 12, true⟩, "", false⟩
        "ok").convo.lastAskPending = false ∧
    (chatStep .fail .fail .fail []
        ⟨"u1", [], none, some ⟨"BS. Nguyễn Văn A", "Tim mạch", "BV Chợ Rẫy", 12, true⟩, "", false⟩
        "ok").answer = connectStr ⟨"BS. Nguyễn Văn A", "Tim mạch", "BV Chợ Rẫy", 12, true⟩ :=
  C1_confirm_binds_pending .fail .fail .fail [] _ "ok" _ rfl (by decide)

/-- C5: the context compactor acts exactly at message count ≥ 30; a
successful compaction truncates the log to exactly the 10 most recent
messages and makes the summary non-empty, extending the prior summary if
one existed and otherwise being exactly the new synopsis; a thrown call or
empty synopsis leaves the conversation unchanged. -/
theorem C5_compactor_contract (c : Convo) (o : GenResult) :
    (c.messages.length < 30 → maybeUpdateSummaryR o c = ⟨c, 0, 0⟩) ∧
    (30 ≤ c.messages.length → maybeUpdateSummaryR .fail c = ⟨c, 0, 1⟩) ∧
    (∀ t, 30 ≤ c.messages.length → jsTrim t = "" →
      maybeUpdateSummaryR (.ok t) c = ⟨c, 0, 1⟩) ∧
    (∀ t, 30 ≤ c.messages.length → jsTrim t ≠ "" →
      (maybeUpdateSummaryR (.ok t) c).convo.messages =
        c.messages.drop (c.messages.length - 10) ∧
      (maybeUpdateSummaryR (.ok t) c).convo.messages.length = 10 ∧
      (maybeUpdateSummaryR (.ok t) c).convo.summary ≠ "" ∧
      (c.summary ≠ "" → ∃ rest,
        (maybeUpdateSummaryR (.ok t) c).convo.summary = c.summary ++ rest) ∧
      (c.summary = "" → (maybeUpdateSummaryR (.ok t) c).convo.summary = jsTrim t)) := by
  refine ⟨fun h => mus_below o c h, fun h => ?_, fun t h ht => ?_, fun t h ht => ?_⟩
  · unfold maybeUpdateSummaryR
    rw [if_pos h]
  · unfold maybeUpdateSummaryR
    rw [if_pos h]
    simp [ht]
  · unfold maybeUpdateSummaryR
    rw [if_pos h]
    simp only [if_neg ht, true_and]
    refine ⟨?_, ?_, ?_, ?_⟩
    · simp
      omega
    · by_cases hs : c.summary = "" <;> simp [hs]
      · exact ht
      · exact string_append_ne_empty_right _ _ ht
    · intro hs
      simp [hs]
      exact ⟨" / " ++ jsTrim t, by rw [String.append_assoc]⟩
    · intro hs
      simp [hs]

/-- Witness for C5 at a conversation of 30 messages and the synopsis
`"tóm tắt"`, plus the below-threshold no-op at 29 messages. -/
theorem C5_compactor_contract_witness :
    (maybeUpdateSummaryR (.ok "tóm tắt")
        ⟨"u1", List.replicate 30 ⟨Role.user, "m"⟩, none, none, "", false⟩).convo.messages.length = 10 ∧
    (maybeUpdateSummaryR (.ok "tóm tắt")
        ⟨"u1", List.replicate 30 ⟨Role.user, "m"⟩, none, none, "", false⟩).convo.summary = jsTrim "tóm tắt" ∧
    maybeUpdateSummaryR (.ok "tóm tắt")
        ⟨"u1", List.replicate 29 ⟨Role.user, "m"⟩, none, none, "", false⟩ =
      ⟨⟨"u1", List.replicate 29 ⟨Role.user, "m"⟩, none, none, "", false⟩, 0, 0⟩ := by
  refine ⟨((C5_compactor_contract _ (.ok "tóm tắt")).2.2.2 "tóm tắt" (by decide) (by decide)).2.1,
    ((C5_compactor_contract _ (.ok "tóm tắt")).2.2.2 "tóm tắt" (by decide) (by decide)).2.2.2.2 rfl,
    (C5_compactor_contract _ (.ok "tóm tắt")).1 (by decide)⟩

/-- C6: the specialty matcher is a total deterministic function whose
keyword rules are evaluated in fixed priority order with first-match-wins
semantics, and any text matching no rule (the empty text included) yields
the default general-medicine tag `'Tổng quát'`. -/
theorem C6_specialty_first_match :
    (∀ t, detectSpecialty t = firstMatchTag t) ∧
    detectSpecialty "" = "Tổng quát" ∧
    (∀ t, (∀ r ∈ specialtyRules, anyKey r.1 (jsLower t) = false) →
      detectSpecialty t = "Tổng quát") := by
  have key : ∀ t, detectSpecialty t = firstMatchTag t := by
    intro t
    unfold detectSpecialty firstMatchTag specialtyRules
    simp only [List.find?]
    repeat' split <;> simp_all
  refine ⟨key, by decide, fun t h => ?_⟩
  rw [key t]
  unfold firstMatchTag
  rw [List.find?_eq_none.mpr]
  · rfl
  · intro r hr
    simp [h r hr]

/-- Witness for C6: the third conjunct applied at the empty text. -/
theorem C6_specialty_first_match_witness :
    detectSpecialty "" = "Tổng quát" :=
  C6_specialty_first_match.2.2 "" (by decide)

/-! ## Reachability (for the C2 invariant) -/

/-- The system message `POST /doctor-conversation` seeds a new doctor
conversation with. -/
def doctorSysMsg (d : Doctor) : Message :=
  ⟨.system,
    "Bạn là bác sĩ " ++ d.name ++ ", chuyên ngành " ++ d.specialty ++
      ", làm việc tại " ++ d.hospital ++ " với " ++ toString d.experience ++
      " năm kinh nghiệm. \n          Bạn có kiến thức vừa phải, hãy tư vấn ngắn gọn, bằng tiếng Việt."⟩

/-- The `POST /doctor-chat/:conversationId` turn (doctor present): append
the user question and the generated answer, or the fixed apology when the
generation call throws. -/
def doctorChatTurn (ro : GenResult) (c : Convo) (q : String) : Convo :=
  pushMsg (pushMsg c .user q) .assistant
    (match ro with | .ok s => s | .fail => "(Xin lỗi, bác sĩ chưa trả lời được)")

/-- Conversation states reachable through the repository's
conversation-creating and conversation-mutating operations:
`POST /conversation`, `POST /end-temp-conversation` (conversation built
from a temp transcript), `POST /doctor-conversation`, the chat turn, the
doctor-chat turn, and the per-request persistence round trip. -/
inductive Reachable (db : List Doctor) : Convo → Prop
  | created (userId : String) : Reachable db ⟨userId, [], none, none, "", false⟩
  | fromTemp (userId : String) (msgs : List Message) :
      Reachable db ⟨userId, msgs, none, none, "", false⟩
  | createdWithDoctor (userId : String) (d : Doctor) :
      Reachable db ⟨userId, [doctorSysMsg d], some d, none, "", false⟩
  | chat (io ro so : GenResult) (q : String) (c : Convo) :
      Reachable db c → Reachable db (chatStep io ro so db c q).convo
  | doctorChat (ro : GenResult) (q : String) (c : Convo) :
      Reachable db c → Reachable db (doctorChatTurn ro c q)
  | reloaded (c : Convo) : Reachable db c → Reachable db (reloadConvo c)

/-- The C2 invariant: the bound and the pending doctor are never both set. -/
def boundPendingExclusive (c : Convo) : Prop :=
  c.doctor = none ∨ c.pendingDoctor = none

theorem chatStep_exclusive (io ro so : GenResult) (db : List Doctor)
    (c : Convo) (q : String) (h : boundPendingExclusive c) :
    boundPendingExclusive (chatStep io ro so db c q).convo := by
  unfold boundPendingExclusive at h ⊢
  cases hpd : c.pendingDoctor with
  | some d =>
    by_cases ha : isAffirmativeShort q = true
    · rw [chatStep_pending_aff io ro so db c q d hpd ha]
      right
      simp [mus_pending, pushMsg]
    · replace ha : isAffirmativeShort q = false := by simpa using ha
      by_cases hn : isNegativeShort q = true
      · rw [chatStep_pending_neg io ro so db c q d hpd ha hn]
        right
        simp [mus_pending, pushMsg]
      · replace hn : isNegativeShort q = false := by simpa using hn
        have hdoc : c.doctor = none := by
          rcases h with h | h
          · exact h
          · rw [h] at hpd; cases hpd
        cases hl : c.lastAskPending
        · rw [chatStep_pending_ask io ro so db c q d hpd ha hn hl]
          left
          simpa [pushMsg] using hdoc
        · rw [chatStep_pending_fb io ro so db c q d hpd ha hn hl]
          left
          simpa [pushMsg] using hdoc
  | none =>
    cases hd : c.doctor with
    | some d =>
      rw [chatStep_connected io ro so db c q d hpd hd]
      right
      simp [mus_pending, pushMsg, hpd]
    | none =>
      by_cases hi : (detectDoctorIntentR io q).1 = true
      · cases hf : db.find? (fun doc => specRegexMatch (detectSpecialty q) doc.specialty) with
        | some doc =>
          rw [chatStep_free_suggest io ro so db c q doc hpd hd hi hf]
          left
          simp [mus_doctor, pushMsg, hd]
        | none =>
          rw [chatStep_free_nodoc io ro so db c q hpd hd hi hf]
          left
          simp [mus_doctor, pushMsg, hd]
      · replace hi : (detectDoctorIntentR io q).1 = false := by simpa using hi
        rw [chatStep_free_nurse io ro so db c q hpd hd hi]
        left
        simp [mus_doctor, pushMsg, hd]

/-- C2: every conversation reachable through the repository's operations
has the bound specialist and the pending specialist never simultaneously
set — binding on confirmation clears the pending field, and a pending
specialist is only set from the state with neither. -/
theorem C2_never_both_bound_and_pending (db : List Doctor) (c : Convo)
    (h : Reachable db c) : boundPendingExclusive c := by
  induction h with
  | created userId => exact Or.inl rfl
  | fromTemp userId msgs => exact Or.inl rfl
  | createdWithDoctor userId d => exact Or.inr rfl
  | chat io ro so q c _ ih => exact chatStep_exclusive io ro so db c q ih
  | doctorChat ro q c _ ih =>
      unfold boundPendingExclusive at ih ⊢
      simpa [doctorChatTurn, pushMsg] using ih
  | reloaded c _ ih =>
      unfold boundPendingExclusive at ih ⊢
      simpa [reloadConvo] using ih

/-- Witness for C2: the invariant at a freshly created conversation. -/
theorem C2_never_both_bound_and_pending_witness :
    boundPendingExclusive ⟨"u1", [], none, none, "", false⟩ :=
  C2_never_both_bound_and_pending [] _ (Reachable.created "u1")

/-! ## C3: the retry flag does not survive persistence -/

/-- A doctor as seeded by `seedDoctorsIfNeeded`. -/
def sampleDoctor : Doctor :=
  ⟨"BS. Nguyễn Văn A", "Tim mạch", "BV Chợ Rẫy", 12, true⟩

/-- A conversation awaiting confirmation of `sampleDoctor`, as a fresh
request sees it (`lastAskPending` rehydrates as false). -/
def samplePending : Convo :=
  ⟨"u1", [], none, some sampleDoctor, "", false⟩

/-- C3 (evaluation at the failing input): two successive ambiguous replies
`"alo"`, with the per-request persistence round trip between them, both
produce the re-ask prompt — the second is not the `'please answer yes or
no'` fallback the claim requires, because `lastAskPending` is not a
`ConversationSchema` path and never persists.  The final conjunct shows
the in-memory intent: without the round trip the second ambiguous reply
would produce the fallback prompt. -/
theorem C3_retry_flag_lost_on_reload :
    (chatStep .fail .fail .fail [] samplePending "alo").answer = askStr ∧
    (chatStep .fail .fail .fail []
        (reloadConvo (chatStep .fail .fail .fail [] samplePending "alo").convo)
        "alo").answer = askStr ∧
    (chatStep .fail .fail .fail []
        (reloadConvo (chatStep .fail .fail .fail [] samplePending "alo").convo)
        "alo").answer ≠ fallbackStr ∧
    (chatStep .fail .fail .fail []
        (chatStep .fail .fail .fail [] samplePending "alo").convo
        "alo").answer = fallbackStr := by
  exact ⟨rfl, rfl, by decide, rfl⟩

/-! ## C4: the chat-flow doctor lookup ignores availability -/

/-- A cardiology doctor who is not available. -/
def unavailableCardio : Doctor :=
  ⟨"BS. Nguyễn Văn A", "Tim mạch", "BV Chợ Rẫy", 12, false⟩

/-- A fresh free-chat conversation. -/
def freshConvo : Convo :=
  ⟨"u1", [], none, none, "", false⟩

/-- C4 counterexample: with the doctor collection containing only an
unavailable cardiologist, the free-chat message `"tôi muốn khám tim"`
still transitions to pending confirmation of that unavailable doctor —
the chat-flow lookup `Doctor.findOne({specialty: regex})` has no
`available: true` filter. -/
theorem C4_counterexample_unavailable_doctor_suggested :
    unavailableCardio.available = false ∧
    (chatStep .fail .fail .fail [unavailableCardio] freshConvo
        "tôi muốn khám tim").convo.pendingDoctor = some unavailableCardio := by
  exact ⟨rfl, rfl⟩

/-- C4 (amended): in FreeChat, when the intent classifier affirms, the
pending specialist becomes the first doctor in the collection whose
specialty matches the detected specialty case-insensitively (as a regex,
i.e. substring) — availability is NOT consulted; the retry flag is cleared
when a doctor is found; a triage record with the detected specialty is
written either way. -/
theorem C4_pending_is_first_specialty_match (io ro so : GenResult)
    (db : List Doctor) (c : Convo) (q : String)
    (hp : c.pendingDoctor = none) (hd : c.doctor = none)
    (hi : (detectDoctorIntentR io q).1 = true) :
    (chatStep io ro so db c q).convo.pendingDoctor
      = db.find? (fun doc => specRegexMatch (detectSpecialty q) doc.specialty) ∧
    (chatStep io ro so db c q).triage = [⟨c.userId, q, detectSpecialty q⟩] ∧
    (∀ doc, db.find? (fun doc => specRegexMatch (detectSpecialty q) doc.specialty) = some doc →
      (chatStep io ro so db c q).convo.lastAskPending = false) := by
  cases hf : db.find? (fun doc => specRegexMatch (detectSpecialty q) doc.specialty) with
  | some doc =>
    rw [chatStep_free_suggest io ro so db c q doc hp hd hi hf]
    refine ⟨?_, rfl, fun doc2 _ => ?_⟩ <;>
      simp [mus_pending, mus_last, pushMsg]
  | none =>
    rw [chatStep_free_nodoc io ro so db c q hp hd hi hf]
    refine ⟨?_, rfl, fun doc2 h2 => ?_⟩
    · simp [mus_pending, pushMsg, hp]
    · cases h2

/-- Witness for C4 at an available cardiologist and the message
`"tôi muốn khám tim"`. -/
theorem C4_pending_is_first_specialty_match_witness :
    (chatStep .fail .fail .fail [sampleDoctor] freshConvo
        "tôi muốn khám tim").convo.pendingDoctor
      = [sampleDoctor].find?
          (fun doc => specRegexMatch (detectSpecialty "tôi muốn khám tim") doc.specialty) ∧
    (chatStep .fail .fail .fail [sampleDoctor] freshConvo
        "tôi muốn khám tim").triage
      = [⟨"u1", "tôi muốn khám tim", detectSpecialty "tôi muốn khám tim"⟩] :=
  ⟨(C4_pending_is_first_specialty_match .fail .fail .fail [sampleDoctor] freshConvo
      "tôi muốn khám tim" rfl rfl (by decide)).1,
   (C4_pending_is_first_specialty_match .fail .fail .fail [sampleDoctor] freshConvo
      "tôi muốn khám tim" rfl rfl (by decide)).2.1⟩

/-! ## C7: message appends and write counts per request -/

theorem mus_msgs_bound (o : GenResult) (c2 : Convo) (base : List Message)
    (u a : Message) (hm : c2.messages = base ++ [u, a]) :
    ∃ k, k ≤ base.length ∧
      (maybeUpdateSummaryR o c2).convo.messages = (base ++ [u, a]).drop k := by
  obtain ⟨k, hk, hcase⟩ := mus_msgs o c2
  refine ⟨k, ?_, by rw [hk, hm]⟩
  have hlen : c2.messages.length = base.length + 2 := by simp [hm]
  rcases hcase with h0 | ⟨h30, hke⟩ <;> omega

/-- C7 (amended): every branch appends the user message first and then
exactly one assistant message — the persisted message list is the old list
plus exactly those two, minus a possibly compacted prefix — and the branch
itself persists the conversation once, while the post-persist compactor
may write once more: one or two conversation writes per inbound request,
not always exactly one. -/
theorem C7_turn_appends_and_writes (io ro so : GenResult) (db : List Doctor)
    (c : Convo) (q : String) :
    (∃ k, k ≤ c.messages.length ∧
      (chatStep io ro so db c q).convo.messages =
        (c.messages ++
          [(⟨.user, q⟩ : Message),
           (⟨.assistant, (chatStep io ro so db c q).answer⟩ : Message)]).drop k) ∧
    1 ≤ (chatStep io ro so db c q).convoSaves ∧
    (chatStep io ro so db c q).convoSaves ≤ 2 := by
  cases hpd : c.pendingDoctor with
  | some d =>
    by_cases ha : isAffirmativeShort q = true
    · rw [chatStep_pending_aff io ro so db c q d hpd ha]
      dsimp only
      exact ⟨mus_msgs_bound so _ c.messages ⟨.user, q⟩ ⟨.assistant, connectStr d⟩
          (by simp [pushMsg]),
        Nat.le_add_right 1 _, Nat.add_le_add_left (mus_saves_le so _) 1⟩
    · replace ha : isAffirmativeShort q = false := by simpa using ha
      by_cases hn : isNegativeShort q = true
      · rw [chatStep_pending_neg io ro so db c q d hpd ha hn]
        dsimp only
        exact ⟨mus_msgs_bound so _ c.messages ⟨.user, q⟩ ⟨.assistant, declineStr⟩
            (by simp [pushMsg]),
          Nat.le_add_right 1 _, Nat.add_le_add_left (mus_saves_le so _) 1⟩
      · replace hn : isNegativeShort q = false := by simpa using hn
        cases hl : c.lastAskPending
        · rw [chatStep_pending_ask io ro so db c q d hpd ha hn hl]
          dsimp only
          exact ⟨⟨0, Nat.zero_le _, by simp [pushMsg]⟩, by omega, by omega⟩
        · rw [chatStep_pending_fb io ro so db c q d hpd ha hn hl]
          dsimp only
          exact ⟨⟨0, Nat.zero_le _, by simp [pushMsg]⟩, by omega, by omega⟩
  | none =>
    cases hd : c.doctor with
    | some d =>
      rw [chatStep_connected io ro so db c q d hpd hd]
      dsimp only
      exact ⟨mus_msgs_bound so _ c.messages ⟨.user, q⟩
          ⟨.assistant, match ro with | .ok s => s | .fail => doctorBusyStr⟩
          (by simp [pushMsg]),
        Nat.le_add_right 1 _, Nat.add_le_add_left (mus_saves_le so _) 1⟩
    | none =>
      by_cases hi : (detectDoctorIntentR io q).1 = true
      · cases hf : db.find? (fun doc => specRegexMatch (detectSpecialty q) doc.specialty) with
        | some doc =>
          rw [chatStep_free_suggest io ro so db c q doc hpd hd hi hf]
          dsimp only
          exact ⟨mus_msgs_bound so _ c.messages ⟨.user, q⟩ ⟨.assistant, suggestStr doc⟩
              (by simp [pushMsg]),
            Nat.le_add_right 1 _, Nat.add_le_add_left (mus_saves_le so _) 1⟩
        | none =>
          rw [chatStep_free_nodoc io ro so db c q hpd hd hi hf]
          dsimp only
          exact ⟨mus_msgs_bound so _ c.messages ⟨.user, q⟩
              ⟨.assistant, noDoctorStr (detectSpecialty q)⟩
              (by simp [pushMsg]),
            Nat.le_add_right 1 _, Nat.add_le_add_left (mus_saves_le so _) 1⟩
      · replace hi : (detectDoctorIntentR io q).1 = false := by simpa using hi
        rw [chatStep_free_nurse io ro so db c q hpd hd hi]
        dsimp only
        exact ⟨mus_msgs_bound so _ c.messages ⟨.user, q⟩
            ⟨.assistant, match ro with | .ok s => s | .fail => nurseBusyStr⟩
            (by simp [pushMsg]),
          Nat.le_add_right 1 _, Nat.add_le_add_left (mus_saves_le so _) 1⟩

/-- A connected conversation whose turn triggers compaction (28 prior
messages, so 30 after the two appends). -/
def connected28 : Convo :=
  ⟨"u1", List.replicate 28 ⟨Role.user, "m"⟩, some sampleDoctor, none, "", false⟩

/-- C7 counterexample: a connected-state turn that triggers a successful
compaction writes the conversation twice in one inbound request, refuting
`'persisted exactly once per turn — at most one write per inbound
request'`. -/
theorem C7_counterexample_two_writes :
    (chatStep .fail (.ok "reply") (.ok "tóm tắt") [] connected28 "hello").convoSaves = 2 := by
  rfl

/-! ## C8: generator failures degrade locally, no retry -/

/-- A connected conversation with an empty transcript. -/
def sampleConnected : Convo :=
  ⟨"u1", [], some sampleDoctor, none, "", false⟩

/-- C8: every generator call site is fallible and caught locally — a
failed or unparseable intent-fallback call degrades to `false`, a failed
reply-generation call degrades to the fixed apology while the turn still
completes with its write, and no call site retries: its number of calls
does not depend on the call outcome. -/
theorem C8_generator_failures_degrade :
    (∀ q, fastPathVerdict q = .ambiguous →
      (detectDoctorIntentR .fail q).1 = false ∧
      (∀ raw, hasSub (jsLower raw) "yes" = false → hasSub (jsLower raw) "có" = false →
        hasSub (jsLower raw) "no" = false → hasSub (jsLower raw) "không" = false →
        (detectDoctorIntentR (.ok raw) q).1 = false)) ∧
    (∀ io so db c q d, c.pendingDoctor = none → c.doctor = some d →
      (chatStep io .fail so db c q).answer = doctorBusyStr ∧
      1 ≤ (chatStep io .fail so db c q).convoSaves) ∧
    (∀ io so db c q, c.pendingDoctor = none → c.doctor = none →
      (detectDoctorIntentR io q).1 = false →
      (chatStep io .fail so db c q).answer = nurseBusyStr) ∧
    (∀ o o' q, (detectDoctorIntentR o q).2 = (detectDoctorIntentR o' q).2 ∧
      (detectDoctorIntentR o q).2 ≤ 1) ∧
    (∀ o o' c, (maybeUpdateSummaryR o c).calls = (maybeUpdateSummaryR o' c).calls ∧
      (maybeUpdateSummaryR o c).calls ≤ 1) ∧
    (∀ ro ro' io so db c q d, c.pendingDoctor = none → c.doctor = some d →
      (chatStep io ro so db c q).genCalls = (chatStep io ro' so db c q).genCalls) := by
  refine ⟨fun q hv => ⟨?_, fun raw h1 h2 h3 h4 => ?_⟩,
    fun io so db c q d hp hd => ?_, fun io so db c q hp hd hi => ?_,
    fun o o' q => ⟨?_, ?_⟩, fun o o' c => ⟨?_, ?_⟩,
    fun ro ro' io so db c q d hp hd => ?_⟩
  · unfold detectDoctorIntentR
    split
    · rfl
    · rw [hv]
  · unfold detectDoctorIntentR
    split
    · rfl
    · rw [hv]
      unfold parseYesNo
      simp [h1, h2, h3, h4]
  · rw [chatStep_connected io .fail so db c q d hp hd]
    dsimp only
    exact ⟨rfl, Nat.le_add_right 1 _⟩
  · rw [chatStep_free_nurse io .fail so db c q hp hd hi]
  · unfold detectDoctorIntentR
    split
    · rfl
    · split <;> cases o <;> cases o' <;> rfl
  · unfold detectDoctorIntentR
    split
    · exact Nat.zero_le 1
    · split <;> cases o <;> simp
  · rw [mus_calls_eq, mus_calls_eq]
  · rw [mus_calls_eq]
    split <;> omega
  · rw [chatStep_connected io ro so db c q d hp hd,
      chatStep_connected io ro' so db c q d hp hd]
    dsimp only
    rw [mus_calls_eq, mus_calls_eq]
    simp [pushMsg]

/-- Witness for C8 at concrete inputs: the ambiguous question `"alo"`, the
unparseable response `"maybe"`, and a connected-state turn with a thrown
reply call. -/
theorem C8_generator_failures_degrade_witness :
    (detectDoctorIntentR .fail "alo").1 = false ∧
    (detectDoctorIntentR (.ok "maybe") "alo").1 = false ∧
    (chatStep .fail .fail .fail [] sampleConnected "xin chào").answer = doctorBusyStr ∧
    (detectDoctorIntentR .fail "alo").2 = (detectDoctorIntentR (.ok "yes") "alo").2 ∧
    (chatStep .fail (.ok "tư vấn ngay") .fail [] sampleConnected "xin chào").genCalls =
      (chatStep .fail .fail .fail [] sampleConnected "xin chào").genCalls :=
  ⟨(C8_generator_failures_degrade.1 "alo" (by decide)).1,
   (C8_generator_failures_degrade.1 "alo" (by decide)).2 "maybe"
     (by decide) (by decide) (by decide) (by decide),
   (C8_generator_failures_degrade.2.1 .fail .fail [] sampleConnected "xin chào"
     sampleDoctor rfl rfl).1,
   (C8_generator_failures_degrade.2.2.2.1 .fail (.ok "yes") "alo").1,
   C8_generator_failures_degrade.2.2.2.2.2 (.ok "tư vấn ngay") .fail .fail .fail []
     sampleConnected "xin chào" sampleDoctor rfl rfl⟩

/-! ## C9: diacritic insensitivity of the two matchers -/

/-- The Vietnamese request exercising C9. -/
def c9Input : String := "tôi muốn gặp bác sĩ"

/-- An input whose combining mark hides trailing whitespace from `trim`. -/
def c9MarkInput : String := "d " ++ String.mk [Char.ofNat 0x300]

/-- C9 counterexample: applying the normalization to the input changes the
intent classifier's fast-path verdict (`"tôi muốn gặp bác sĩ"` matches the
want-regex, its stripped form matches nothing and becomes ambiguous), and
even short-form recognition can change when stripping a mark exposes edge
whitespace that `trim` (already run) would have removed. -/
theorem C9_counterexample_not_diacritic_insensitive :
    fastPathVerdict c9Input = .yes ∧
    fastPathVerdict (normalizeInput c9Input) = .ambiguous ∧
    isAffirmativeShort c9MarkInput = false ∧
    isAffirmativeShort (normalizeInput c9MarkInput) = true := by
  exact ⟨rfl, rfl, rfl, rfl⟩

/-- C9 (amended): short-form recognition is stable under the normalization
wherever the normalization is idempotent (which stripping a mark adjacent
to edge whitespace can defeat), because the vocabularies are compared
against the normalized text; the intent classifier's fast-path regexes,
however, keep their diacritics and are not insensitive: normalizing the
input can change the fast-path verdict. -/
theorem C9_shortform_stable_fastpath_not :
    (∀ x, normalizeInput (normalizeInput x) = normalizeInput x →
      isAffirmativeShort (normalizeInput x) = isAffirmativeShort x ∧
      isNegativeShort (normalizeInput x) = isNegativeShort x) ∧
    fastPathVerdict c9Input = .yes ∧
    fastPathVerdict (normalizeInput c9Input) = .ambiguous := by
  refine ⟨fun x h => ?_, rfl, rfl⟩
  unfold isAffirmativeShort isNegativeShort
  rw [h]
  exact ⟨rfl, rfl⟩

/-- Witness for C9's universal conjunct at the input `"Ok"`. -/
theorem C9_shortform_stable_fastpath_not_witness :
    isAffirmativeShort (normalizeInput "Ok") = isAffirmativeShort "Ok" ∧
    isNegativeShort (normalizeInput "Ok") = isNegativeShort "Ok" :=
  C9_shortform_stable_fastpath_not.1 "Ok" (by decide)

/-! ## C10: the pending branches still reach the generator via compaction -/

/-- A pending-confirmation conversation whose next turn reaches the
compaction threshold. -/
def pending28 : Convo :=
  ⟨"u1", List.replicate 28 ⟨Role.user, "m"⟩, none, some sampleDoctor, "", false⟩

/-- C10 counterexample: on a pending conversation with 28 prior messages,
the affirmative reply `"ok"` makes the handler invoke the generator once
(the fire-and-forget compactor), and two different collaborator behaviours
yield different persisted conversation states — refuting `'never invokes
the text-generation collaborator'` and the oracle-independence of the
resulting state. -/
theorem C10_counterexample_compactor_reaches_generator :
    pending28.pendingDoctor = some sampleDoctor ∧
    (chatStep .fail .fail (.ok "tóm tắt") [] pending28 "ok").genCalls = 1 ∧
    (chatStep .fail .fail (.ok "tóm tắt") [] pending28 "ok").convo ≠
      (chatStep .fail .fail .fail [] pending28 "ok").convo := by
  exact ⟨rfl, rfl, by decide⟩

/-- C10 (amended): while a pending specialist is set and the conversation
stays below the compaction threshold after the turn's two appends, the
submit-message operation makes no generator call, writes no triage record,
is independent of the collaborator's behaviour and of the doctor
collection, and replies with one of the four reply templates determined by
the short-form classification and the retry flag (the affirmative one
naming the pending specialist). -/
theorem C10_pending_below_threshold_oracle_free
    (io io' ro ro' so so' : GenResult) (db db' : List Doctor)
    (c : Convo) (q : String) (d : Doctor)
    (hp : c.pendingDoctor = some d) (hlen : c.messages.length + 2 < 30) :
    chatStep io ro so db c q = chatStep io' ro' so' db' c q ∧
    (chatStep io ro so db c q).genCalls = 0 ∧
    (chatStep io ro so db c q).triage = [] ∧
    ((chatStep io ro so db c q).answer = connectStr d ∨
     (chatStep io ro so db c q).answer = declineStr ∨
     (chatStep io ro so db c q).answer = askStr ∨
     (chatStep io ro so db c q).answer = fallbackStr) := by
  by_cases ha : isAffirmativeShort q = true
  · rw [chatStep_pending_aff io ro so db c q d hp ha,
      chatStep_pending_aff io' ro' so' db' c q d hp ha]
    dsimp only
    rw [mus_below so _ (by simp [pushMsg]; omega), mus_below so' _ (by simp [pushMsg]; omega)]
    exact ⟨rfl, rfl, rfl, Or.inl rfl⟩
  · replace ha : isAffirmativeShort q = false := by simpa using ha
    by_cases hn : isNegativeShort q = true
    · rw [chatStep_pending_neg io ro so db c q d hp ha hn,
        chatStep_pending_neg io' ro' so' db' c q d hp ha hn]
      dsimp only
      rw [mus_below so _ (by simp [pushMsg]; omega), mus_below so' _ (by simp [pushMsg]; omega)]
      exact ⟨rfl, rfl, rfl, Or.inr (Or.inl rfl)⟩
    · replace hn : isNegativeShort q = false := by simpa using hn
      cases hl : c.lastAskPending
      · rw [chatStep_pending_ask io ro so db c q d hp ha hn hl,
          chatStep_pending_ask io' ro' so' db' c q d hp ha hn hl]
        exact ⟨rfl, rfl, rfl, Or.inr (Or.inr (Or.inl rfl))⟩
      · rw [chatStep_pending_fb io ro so db c q d hp ha hn hl,
          chatStep_pending_fb io' ro' so' db' c q d hp ha hn hl]
        exact ⟨rfl, rfl, rfl, Or.inr (Or.inr (Or.inr rfl))⟩

/-- Witness for C10 at an empty pending conversation and the ambiguous
reply `"alo"`. -/
theorem C10_pending_below_threshold_oracle_free_witness :
    chatStep (.ok "yes") (.ok "r") (.ok "s") [sampleDoctor] samplePending "alo" =
      chatStep .fail .fail .fail [] samplePending "alo" ∧
    (chatStep (.ok "yes") (.ok "r") (.ok "s") [sampleDoctor] samplePending "alo").genCalls = 0 :=
  ⟨(C10_pending_below_threshold_oracle_free (.ok "yes") .fail (.ok "r") .fail (.ok "s") .fail
      [sampleDoctor] [] samplePending "alo" sampleDoctor rfl (by decide)).1,
   (C10_pending_below_threshold_oracle_free (.ok "yes") .fail (.ok "r") .fail (.ok "s") .fail
      [sampleDoctor] [] samplePending "alo" sampleDoctor rfl (by decide)).2.1⟩

end Mediverse
